import Mathlib

/-!
Shallow embedding of the core of `rilwal/rust-raytracer` (src/main.rs):
the vector helpers, the ray–sphere intersection engine, the hardcoded
two-sphere color resolver `Ray::cast`, the `Camera` record, and the
`RayIterator` sample generator.  The `f64` arithmetic of the source is
modelled by exact real arithmetic; Rust's saturating `as usize` cast of
an `f64` is modelled by `Int.toNat ∘ Int.floor`, which agrees with the
Rust cast on every real number (truncation toward zero for nonnegative
values, saturation at zero below).
-/

namespace Raytracer

noncomputable section

/-- 3-component vector of reals, modelling `glm::Vector3<f64>` (`Vec3`). -/
@[ext] structure Vec3 where
  x : ℝ
  y : ℝ
  z : ℝ

/-- 2-component vector of reals, modelling `glm::Vector2<f64>` (`Vec2`). -/
@[ext] structure Vec2 where
  x : ℝ
  y : ℝ

/-- Constructor helper `vec3` from main.rs. -/
def vec3 (x y z : ℝ) : Vec3 := ⟨x, y, z⟩

/-- Constructor helper `vec2` from main.rs. -/
def vec2 (x y : ℝ) : Vec2 := ⟨x, y⟩

instance : Add Vec3 := ⟨fun a b => ⟨a.x + b.x, a.y + b.y, a.z + b.z⟩⟩

instance : Sub Vec3 := ⟨fun a b => ⟨a.x - b.x, a.y - b.y, a.z - b.z⟩⟩

instance : HMul Vec3 ℝ Vec3 := ⟨fun v s => ⟨v.x * s, v.y * s, v.z * s⟩⟩

instance : HDiv Vec3 ℝ Vec3 := ⟨fun v s => ⟨v.x / s, v.y / s, v.z / s⟩⟩

@[simp] lemma Vec3.add_def (a b : Vec3) :
    a + b = ⟨a.x + b.x, a.y + b.y, a.z + b.z⟩ := rfl

@[simp] lemma Vec3.sub_def (a b : Vec3) :
    a - b = ⟨a.x - b.x, a.y - b.y, a.z - b.z⟩ := rfl

@[simp] lemma Vec3.smul_def (v : Vec3) (s : ℝ) :
    v * s = ⟨v.x * s, v.y * s, v.z * s⟩ := rfl

@[simp] lemma Vec3.sdiv_def (v : Vec3) (s : ℝ) :
    v / s = ⟨v.x / s, v.y / s, v.z / s⟩ := rfl

/-- Dot product, modelling `glm::dot` on `Vec3`. -/
def dot (a b : Vec3) : ℝ := a.x * b.x + a.y * b.y + a.z * b.z

/-- Cross product, modelling `glm::cross`. -/
def cross (a b : Vec3) : Vec3 :=
  ⟨a.y * b.z - a.z * b.y, a.z * b.x - a.x * b.z, a.x * b.y - a.y * b.x⟩

/-- Normalization, modelling `glm::normalize`: the vector divided by its
Euclidean length.  On the zero vector the real model divides by zero and
yields the zero vector. -/
def normalize (v : Vec3) : Vec3 := v / Real.sqrt (dot v v)

/-- `Sphere` from main.rs. -/
structure Sphere where
  center : Vec3
  radius : ℝ

/-- `Ray` from main.rs. -/
structure Ray where
  origin : Vec3
  dir : Vec3

/-- `Ray::new`. -/
def Ray.new (origin dir : Vec3) : Ray := ⟨origin, dir⟩

/-- `HitRecord` from main.rs. -/
structure HitRecord where
  dist : ℝ
  norm : Vec3
  point : Vec3

/-- `ray_sphere_intersection` from main.rs, lines 207-235, translated
branch by branch.  The source's `let mut root` with one reassignment is
rendered as the nested `if` below. -/
def ray_sphere_intersection (ray : Ray) (sphere : Sphere) (t_min t_max : ℝ) :
    Option HitRecord :=
  let oc := ray.origin - sphere.center
  let a := dot ray.dir ray.dir
  let half_b := dot oc ray.dir
  let c := dot oc oc - sphere.radius * sphere.radius
  let disc := half_b * half_b - a * c
  if disc < 0 then none
  else
    let sqrtd := Real.sqrt disc
    let root := (-half_b - sqrtd) / a
    if root < t_min ∨ t_max < root then
      let root2 := (-half_b + sqrtd) / a
      if root2 < t_min ∨ t_max < root2 then none
      else
        let dist := root2
        let point := ray.origin + ray.dir * dist
        let norm := (point - sphere.center) / sphere.radius
        some ⟨dist, norm, point⟩
    else
      let dist := root
      let point := ray.origin + ray.dir * dist
      let norm := (point - sphere.center) / sphere.radius
      some ⟨dist, norm, point⟩

/-- `Ray::cast` from main.rs, lines 66-88: intersect the two hardcoded
scene spheres over `[0, 10000]` and pick a flat color. -/
def Ray.cast (self : Ray) : Vec3 :=
  let sphere : Sphere := ⟨vec3 0 0 0, 2⟩
  let sphere2 : Sphere := ⟨vec3 0 3 0, 1⟩
  let sphere_hit := ray_sphere_intersection self sphere 0 10000
  let sphere2_hit := ray_sphere_intersection self sphere2 0 10000
  match sphere_hit with
  | some hit =>
    match sphere2_hit with
    | some hit2 => if hit.dist < hit2.dist then vec3 1 0 0 else vec3 0 1 0
    | none => vec3 1 0 0
  | none =>
    match sphere2_hit with
    | some _ => vec3 0 1 0
    | none => vec3 1 0 1

/-- `WINDOW_HEIGHT` constant from main.rs. -/
def WINDOW_HEIGHT : ℕ := 512

/-- `WINDOW_WIDTH` constant from main.rs: `(WINDOW_HEIGHT as f64 *
ASPECT_RATIO) as usize` with the aspect ratio `36.0 / 24.0` inlined. -/
def WINDOW_WIDTH : ℕ := (⌊(WINDOW_HEIGHT : ℝ) * (36 / 24)⌋).toNat

/-- `Camera` from main.rs. -/
structure Camera where
  position : Vec3
  look : Vec3
  sensor : Vec2
  exposure : ℝ
  focal_length : ℝ
  iso : ℝ

/-- `RayIterator` state from main.rs, lines 92-105. -/
structure RayIterator where
  i : ℕ
  samples_per_pixel : ℕ
  total_samples : ℕ
  sensor_bottom_left : Vec3
  sensor_x_axis : Vec3
  sensor_y_axis : Vec3
  sensor : Vec2
  focal_point : Vec3

/-- `RayIterator::new` from main.rs, lines 109-141.  The Rust cast
`(100.0 * cam.exposure) as usize` is modelled by `Int.toNat ∘ Int.floor`. -/
def RayIterator.new (cam : Camera) : RayIterator :=
  let focal_point := cam.position + cam.look * cam.focal_length
  let sensor_x_axis := cross cam.look (vec3 0 1 0)
  let sensor_y_axis := cross cam.look sensor_x_axis
  let sensor_bottom_left := cam.position -
    sensor_x_axis * cam.sensor.x * (0.5 : ℝ) -
    sensor_y_axis * cam.sensor.y * (0.5 : ℝ)
  let samples_per_pixel : ℕ := (⌊(100 : ℝ) * cam.exposure⌋).toNat
  let total_samples := samples_per_pixel * WINDOW_WIDTH * WINDOW_HEIGHT
  let sensor := cam.sensor
  { i := 0
    samples_per_pixel := samples_per_pixel
    total_samples := total_samples
    sensor_bottom_left := sensor_bottom_left
    sensor_x_axis := sensor_x_axis
    sensor_y_axis := sensor_y_axis
    sensor := sensor
    focal_point := focal_point }

/-- The item emitted for sample index `i` by `RayIterator::next`
(main.rs lines 156-169), as a pure function of the iterator's camera
data and the index.  The pixel is the pair of `i32` coordinates of the
source, modelled in `ℤ`. -/
def sampleItem (self : RayIterator) (i : ℕ) : (ℤ × ℤ) × Ray :=
  let pixel_index := i / self.samples_per_pixel
  let pixel : ℤ × ℤ := ((pixel_index % WINDOW_WIDTH : ℕ), (pixel_index / WINDOW_WIDTH : ℕ))
  let advance := vec2 ((pixel.1 : ℝ) / (WINDOW_WIDTH : ℝ)) ((pixel.2 : ℝ) / (WINDOW_HEIGHT : ℝ))
  let ray_origin := self.sensor_bottom_left +
    self.sensor_x_axis * advance.x * self.sensor.x +
    self.sensor_y_axis * advance.y * self.sensor.y
  let ray_dir := normalize (self.focal_point - ray_origin)
  (pixel, Ray.new ray_origin ray_dir)

/-- `Iterator::next` for `RayIterator`, main.rs lines 148-170: the
index is incremented first, the bound check `i >= total_samples` comes
before the division `i / samples_per_pixel`, and only past the check is
an item produced. -/
def RayIterator.next (self : RayIterator) : Option ((ℤ × ℤ) × Ray) × RayIterator :=
  let i := self.i
  let next_state := { self with i := self.i + 1 }
  if i ≥ self.total_samples then (none, next_state)
  else (some (sampleItem self i), next_state)

/-- Driving the iterator: the list of items produced by repeatedly
calling `next` until it returns `None`, with an explicit fuel bound. -/
def RayIterator.run (self : RayIterator) : ℕ → List ((ℤ × ℤ) × Ray)
  | 0 => []
  | fuel + 1 =>
    match self.next with
    | (none, _) => []
    | (some item, s) => item :: s.run fuel

/-! Named forms of the quantities computed inside
`ray_sphere_intersection`, definitionally equal to the let-bound values
of the source translation. -/

/-- The quadratic coefficient `a = dot(dir, dir)`. -/
def rsA (ray : Ray) : ℝ := dot ray.dir ray.dir

/-- The half linear coefficient `half_b = dot(oc, dir)`. -/
def rsHalfB (ray : Ray) (sphere : Sphere) : ℝ :=
  dot (ray.origin - sphere.center) ray.dir

/-- The constant coefficient `c = dot(oc, oc) - radius^2`. -/
def rsC (ray : Ray) (sphere : Sphere) : ℝ :=
  dot (ray.origin - sphere.center) (ray.origin - sphere.center) -
    sphere.radius * sphere.radius

/-- The discriminant `disc = half_b^2 - a*c`. -/
def rsDisc (ray : Ray) (sphere : Sphere) : ℝ :=
  rsHalfB ray sphere * rsHalfB ray sphere - rsA ray * rsC ray sphere

/-- The root tried first, `(-half_b - sqrt disc) / a`. -/
def rsRoot1 (ray : Ray) (sphere : Sphere) : ℝ :=
  (-rsHalfB ray sphere - Real.sqrt (rsDisc ray sphere)) / rsA ray

/-- The root tried second, `(-half_b + sqrt disc) / a`. -/
def rsRoot2 (ray : Ray) (sphere : Sphere) : ℝ :=
  (-rsHalfB ray sphere + Real.sqrt (rsDisc ray sphere)) / rsA ray

/-- The hit record built on success for a chosen root. -/
def mkHit (ray : Ray) (sphere : Sphere) (dist : ℝ) : HitRecord :=
  ⟨dist, (ray.origin + ray.dir * dist - sphere.center) / sphere.radius,
    ray.origin + ray.dir * dist⟩

lemma WINDOW_WIDTH_eq : WINDOW_WIDTH = 768 := by
  unfold WINDOW_WIDTH WINDOW_HEIGHT
  rw [show ((512 : ℕ) : ℝ) * (36 / 24) = ((768 : ℤ) : ℝ) by norm_num,
    Int.floor_intCast]
  rfl

lemma rsi_unfold (ray : Ray) (sphere : Sphere) (t_min t_max : ℝ) :
    ray_sphere_intersection ray sphere t_min t_max =
      if rsDisc ray sphere < 0 then none
      else if rsRoot1 ray sphere < t_min ∨ t_max < rsRoot1 ray sphere then
        if rsRoot2 ray sphere < t_min ∨ t_max < rsRoot2 ray sphere then none
        else some (mkHit ray sphere (rsRoot2 ray sphere))
      else some (mkHit ray sphere (rsRoot1 ray sphere)) := rfl

lemma rsi_none_of_disc_neg (ray : Ray) (sphere : Sphere) (t_min t_max : ℝ)
    (h : rsDisc ray sphere < 0) :
    ray_sphere_intersection ray sphere t_min t_max = none := by
  rw [rsi_unfold, if_pos h]

lemma rsi_first_root (ray : Ray) (sphere : Sphere) (t_min t_max : ℝ)
    (h : ¬ rsDisc ray sphere < 0)
    (h1 : t_min ≤ rsRoot1 ray sphere) (h2 : rsRoot1 ray sphere ≤ t_max) :
    ray_sphere_intersection ray sphere t_min t_max =
      some (mkHit ray sphere (rsRoot1 ray sphere)) := by
  rw [rsi_unfold, if_neg h, if_neg]
  push_neg
  exact ⟨h1, h2⟩

lemma rsi_second_root (ray : Ray) (sphere : Sphere) (t_min t_max : ℝ)
    (h : ¬ rsDisc ray sphere < 0)
    (h1 : rsRoot1 ray sphere < t_min ∨ t_max < rsRoot1 ray sphere)
    (h2 : t_min ≤ rsRoot2 ray sphere) (h3 : rsRoot2 ray sphere ≤ t_max) :
    ray_sphere_intersection ray sphere t_min t_max =
      some (mkHit ray sphere (rsRoot2 ray sphere)) := by
  rw [rsi_unfold, if_neg h, if_pos h1, if_neg]
  push_neg
  exact ⟨h2, h3⟩

lemma rsi_none_of_roots_outside (ray : Ray) (sphere : Sphere) (t_min t_max : ℝ)
    (h : ¬ rsDisc ray sphere < 0)
    (h1 : rsRoot1 ray sphere < t_min ∨ t_max < rsRoot1 ray sphere)
    (h2 : rsRoot2 ray sphere < t_min ∨ t_max < rsRoot2 ray sphere) :
    ray_sphere_intersection ray sphere t_min t_max = none := by
  rw [rsi_unfold, if_neg h, if_pos h1, if_pos h2]

lemma rsi_cases (ray : Ray) (sphere : Sphere) (t_min t_max : ℝ) (hr : HitRecord)
    (h : ray_sphere_intersection ray sphere t_min t_max = some hr) :
    (hr = mkHit ray sphere (rsRoot1 ray sphere) ∨
      hr = mkHit ray sphere (rsRoot2 ray sphere)) ∧
    t_min ≤ hr.dist ∧ hr.dist ≤ t_max := by
  rw [rsi_unfold] at h
  by_cases hd : rsDisc ray sphere < 0
  · rw [if_pos hd] at h
    exact absurd h (by simp)
  · rw [if_neg hd] at h
    by_cases h1 : rsRoot1 ray sphere < t_min ∨ t_max < rsRoot1 ray sphere
    · rw [if_pos h1] at h
      by_cases h2 : rsRoot2 ray sphere < t_min ∨ t_max < rsRoot2 ray sphere
      · rw [if_pos h2] at h
        exact absurd h (by simp)
      · rw [if_neg h2] at h
        push_neg at h2
        refine ⟨Or.inr (Option.some_injective _ h).symm, ?_, ?_⟩
        · rw [← (Option.some_injective _ h)]
          exact h2.1
        · rw [← (Option.some_injective _ h)]
          exact h2.2
    · rw [if_neg h1] at h
      push_neg at h1
      refine ⟨Or.inl (Option.some_injective _ h).symm, ?_, ?_⟩
      · rw [← (Option.some_injective _ h)]
        exact h1.1
      · rw [← (Option.some_injective _ h)]
        exact h1.2

/-! Closed form of the emitted sample sequence. -/

lemma sampleItem_bump (s : RayIterator) (j : ℕ) :
    sampleItem { s with i := j } = sampleItem s := rfl

lemma RayIterator.next_stop (s : RayIterator) (h : s.total_samples ≤ s.i) :
    s.next = (none, { s with i := s.i + 1 }) := by
  simp [RayIterator.next, h]

lemma RayIterator.next_emit (s : RayIterator) (h : s.i < s.total_samples) :
    s.next = (some (sampleItem s s.i), { s with i := s.i + 1 }) := by
  have hn : ¬ s.i ≥ s.total_samples := not_le.mpr h
  simp [RayIterator.next, hn]

lemma RayIterator.run_eq (fuel : ℕ) : ∀ s : RayIterator,
    s.run fuel =
      (List.range' s.i (min fuel (s.total_samples - s.i))).map (sampleItem s) := by
  induction fuel with
  | zero => intro s; simp [RayIterator.run]
  | succ n ih =>
    intro s
    by_cases h : s.total_samples ≤ s.i
    · have h0 : s.total_samples - s.i = 0 := Nat.sub_eq_zero_of_le h
      rw [RayIterator.run, RayIterator.next_stop s h]
      simp [h0]
    · push_neg at h
      rw [RayIterator.run, RayIterator.next_emit s h]
      show sampleItem s s.i :: RayIterator.run { s with i := s.i + 1 } n = _
      rw [ih]
      have hmin : min (n + 1) (s.total_samples - s.i) =
          min n (s.total_samples - (s.i + 1)) + 1 := by omega
      rw [hmin, List.range'_succ]
      simp [sampleItem_bump]

lemma RayIterator.run_new_eq (cam : Camera) (fuel : ℕ) :
    (RayIterator.new cam).run fuel =
      (List.range' 0 (min fuel (RayIterator.new cam).total_samples)).map
        (sampleItem (RayIterator.new cam)) := by
  rw [RayIterator.run_eq]
  rfl

/-! Square roots of the concrete discriminants used below. -/

lemma sqrt_four : Real.sqrt 4 = 2 := by
  rw [show (4 : ℝ) = 2 ^ 2 by norm_num, Real.sqrt_sq (by norm_num : (0:ℝ) ≤ 2)]

lemma sqrt_one_eq : Real.sqrt 1 = 1 := Real.sqrt_one

/-- C1: for every ray, sphere, t_min and t_max,
`ray_sphere_intersection` returns `none` when the discriminant
`half_b^2 - a*c` is negative; otherwise it returns the root
`(-half_b - sqrt disc) / a` when that lies in `[t_min, t_max]`, else the
root `(-half_b + sqrt disc) / a` when that lies in `[t_min, t_max]`,
else `none`; and on success the hit record's `dist` is the chosen root
(hence inside `[t_min, t_max]`), `point = origin + dir * dist`, and
`norm = (point - center) / radius`. -/
theorem spec_C1_intersection_contract (ray : Ray) (sphere : Sphere)
    (t_min t_max : ℝ) :
    (rsDisc ray sphere < 0 →
      ray_sphere_intersection ray sphere t_min t_max = none) ∧
    (0 ≤ rsDisc ray sphere →
      ray_sphere_intersection ray sphere t_min t_max =
        if t_min ≤ rsRoot1 ray sphere ∧ rsRoot1 ray sphere ≤ t_max then
          some (mkHit ray sphere (rsRoot1 ray sphere))
        else if t_min ≤ rsRoot2 ray sphere ∧ rsRoot2 ray sphere ≤ t_max then
          some (mkHit ray sphere (rsRoot2 ray sphere))
        else none) ∧
    (∀ hr, ray_sphere_intersection ray sphere t_min t_max = some hr →
      (t_min ≤ hr.dist ∧ hr.dist ≤ t_max) ∧
      hr.point = ray.origin + ray.dir * hr.dist ∧
      hr.norm = (hr.point - sphere.center) / sphere.radius) := by
  refine ⟨fun h => rsi_none_of_disc_neg ray sphere t_min t_max h, fun h0 => ?_, ?_⟩
  · have hnl : ¬ rsDisc ray sphere < 0 := not_lt.mpr h0
    by_cases hc1 : t_min ≤ rsRoot1 ray sphere ∧ rsRoot1 ray sphere ≤ t_max
    · rw [if_pos hc1]
      exact rsi_first_root ray sphere t_min t_max hnl hc1.1 hc1.2
    · rw [if_neg hc1]
      have h1 : rsRoot1 ray sphere < t_min ∨ t_max < rsRoot1 ray sphere := by
        rcases not_and_or.mp hc1 with h | h
        · exact Or.inl (not_le.mp h)
        · exact Or.inr (not_le.mp h)
      by_cases hc2 : t_min ≤ rsRoot2 ray sphere ∧ rsRoot2 ray sphere ≤ t_max
      · rw [if_pos hc2]
        exact rsi_second_root ray sphere t_min t_max hnl h1 hc2.1 hc2.2
      · rw [if_neg hc2]
        have h2 : rsRoot2 ray sphere < t_min ∨ t_max < rsRoot2 ray sphere := by
          rcases not_and_or.mp hc2 with h | h
          · exact Or.inl (not_le.mp h)
          · exact Or.inr (not_le.mp h)
        exact rsi_none_of_roots_outside ray sphere t_min t_max hnl h1 h2
  · intro hr h
    obtain ⟨hor, hlo, hhi⟩ := rsi_cases ray sphere t_min t_max hr h
    refine ⟨⟨hlo, hhi⟩, ?_, ?_⟩ <;> rcases hor with h' | h' <;> simp [h', mkHit]

/-! Concrete evaluation of the intersection on the spec's worked
example: sphere at the origin with radius 2, ray from `(0,0,10)` in
direction `(0,0,-1)`. -/

lemma disc_example :
    rsDisc (Ray.new (vec3 0 0 10) (vec3 0 0 (-1))) ⟨vec3 0 0 0, 2⟩ = 4 := by
  simp [rsDisc, rsHalfB, rsA, rsC, Ray.new, vec3, dot]
  norm_num

lemma root1_example :
    rsRoot1 (Ray.new (vec3 0 0 10) (vec3 0 0 (-1))) ⟨vec3 0 0 0, 2⟩ = 8 := by
  rw [rsRoot1, disc_example, sqrt_four]
  simp [rsHalfB, rsA, Ray.new, vec3, dot]
  norm_num

lemma rsi_example :
    ray_sphere_intersection (Ray.new (vec3 0 0 10) (vec3 0 0 (-1)))
      ⟨vec3 0 0 0, 2⟩ 0 10000 =
      some ⟨8, vec3 0 0 1, vec3 0 0 2⟩ := by
  rw [rsi_first_root (Ray.new (vec3 0 0 10) (vec3 0 0 (-1))) ⟨vec3 0 0 0, 2⟩ 0 10000
      (by rw [disc_example]; norm_num)
      (by rw [root1_example]; norm_num)
      (by rw [root1_example]; norm_num),
    root1_example]
  simp [mkHit, Ray.new, vec3]
  norm_num

/-- C1 witness: the contract instantiated on the worked example, where
the discriminant is `4 ≥ 0` and the first root `8` lies in `[0, 10000]`,
so the intersection returns the hit built from root `8`. -/
theorem spec_C1_intersection_contract_witness :
    (0:ℝ) ≤ rsDisc (Ray.new (vec3 0 0 10) (vec3 0 0 (-1))) ⟨vec3 0 0 0, 2⟩ ∧
    ray_sphere_intersection (Ray.new (vec3 0 0 10) (vec3 0 0 (-1)))
        ⟨vec3 0 0 0, 2⟩ 0 10000 =
      some (mkHit (Ray.new (vec3 0 0 10) (vec3 0 0 (-1))) ⟨vec3 0 0 0, 2⟩
        (rsRoot1 (Ray.new (vec3 0 0 10) (vec3 0 0 (-1))) ⟨vec3 0 0 0, 2⟩)) := by
  have h0 : (0:ℝ) ≤ rsDisc (Ray.new (vec3 0 0 10) (vec3 0 0 (-1))) ⟨vec3 0 0 0, 2⟩ := by
    rw [disc_example]; norm_num
  have h := (spec_C1_intersection_contract (Ray.new (vec3 0 0 10) (vec3 0 0 (-1)))
    ⟨vec3 0 0 0, 2⟩ 0 10000).2.1 h0
  refine ⟨h0, ?_⟩
  rw [h, if_pos]
  rw [root1_example]
  constructor <;> norm_num

/-- C8: on the sphere centered at the origin with radius 2 and the ray
from `(0,0,10)` with direction `(0,0,-1)` over `[0, 10000]`, the
intersection returns a hit with distance 8, normal `(0,0,1)` and point
`(0,0,2)`. -/
theorem spec_C8_worked_example :
    ray_sphere_intersection (Ray.new (vec3 0 0 10) (vec3 0 0 (-1)))
      ⟨vec3 0 0 0, 2⟩ 0 10000 =
      some ⟨8, vec3 0 0 1, vec3 0 0 2⟩ :=
  rsi_example

/-! Case analysis of `Ray::cast` over the two scene intersections. -/

lemma cast_of_both (r : Ray) (a b : HitRecord)
    (h1 : ray_sphere_intersection r ⟨vec3 0 0 0, 2⟩ 0 10000 = some a)
    (h2 : ray_sphere_intersection r ⟨vec3 0 3 0, 1⟩ 0 10000 = some b) :
    r.cast = if a.dist < b.dist then vec3 1 0 0 else vec3 0 1 0 := by
  simp only [Ray.cast, h1, h2]

lemma cast_of_first (r : Ray) (a : HitRecord)
    (h1 : ray_sphere_intersection r ⟨vec3 0 0 0, 2⟩ 0 10000 = some a)
    (h2 : ray_sphere_intersection r ⟨vec3 0 3 0, 1⟩ 0 10000 = none) :
    r.cast = vec3 1 0 0 := by
  simp only [Ray.cast, h1, h2]

lemma cast_of_second (r : Ray) (b : HitRecord)
    (h1 : ray_sphere_intersection r ⟨vec3 0 0 0, 2⟩ 0 10000 = none)
    (h2 : ray_sphere_intersection r ⟨vec3 0 3 0, 1⟩ 0 10000 = some b) :
    r.cast = vec3 0 1 0 := by
  simp only [Ray.cast, h1, h2]

lemma cast_of_none (r : Ray)
    (h1 : ray_sphere_intersection r ⟨vec3 0 0 0, 2⟩ 0 10000 = none)
    (h2 : ray_sphere_intersection r ⟨vec3 0 3 0, 1⟩ 0 10000 = none) :
    r.cast = vec3 1 0 1 := by
  simp only [Ray.cast, h1, h2]

/-- C3: `Ray::cast` returns the first sphere's color `(1,0,0)` when only
the first sphere is hit or when both are hit and the first is strictly
nearer; the second sphere's color `(0,1,0)` when only the second sphere
is hit or when both are hit and the second is strictly nearer; and the
background color `(1,0,1)` when neither sphere is hit. -/
theorem spec_C3_nearest_sphere_color (r : Ray) :
    (∀ a b, ray_sphere_intersection r ⟨vec3 0 0 0, 2⟩ 0 10000 = some a →
      ray_sphere_intersection r ⟨vec3 0 3 0, 1⟩ 0 10000 = some b →
      a.dist < b.dist → r.cast = vec3 1 0 0) ∧
    (∀ a b, ray_sphere_intersection r ⟨vec3 0 0 0, 2⟩ 0 10000 = some a →
      ray_sphere_intersection r ⟨vec3 0 3 0, 1⟩ 0 10000 = some b →
      b.dist < a.dist → r.cast = vec3 0 1 0) ∧
    (∀ a, ray_sphere_intersection r ⟨vec3 0 0 0, 2⟩ 0 10000 = some a →
      ray_sphere_intersection r ⟨vec3 0 3 0, 1⟩ 0 10000 = none →
      r.cast = vec3 1 0 0) ∧
    (∀ b, ray_sphere_intersection r ⟨vec3 0 0 0, 2⟩ 0 10000 = none →
      ray_sphere_intersection r ⟨vec3 0 3 0, 1⟩ 0 10000 = some b →
      r.cast = vec3 0 1 0) ∧
    (ray_sphere_intersection r ⟨vec3 0 0 0, 2⟩ 0 10000 = none →
      ray_sphere_intersection r ⟨vec3 0 3 0, 1⟩ 0 10000 = none →
      r.cast = vec3 1 0 1) := by
  refine ⟨fun a b h1 h2 hlt => ?_, fun a b h1 h2 hlt => ?_,
    fun a h1 h2 => cast_of_first r a h1 h2,
    fun b h1 h2 => cast_of_second r b h1 h2,
    fun h1 h2 => cast_of_none r h1 h2⟩
  · rw [cast_of_both r a b h1 h2, if_pos hlt]
  · rw [cast_of_both r a b h1 h2, if_neg (lt_asymm hlt)]

/-! Concrete rays for the cast theorems: the ray from `(0,10,0)` in
direction `(0,-1,0)` hits the second sphere at distance 6 and the first
at distance 8; the ray from `(0,2,10)` in direction `(0,0,-1)` is
tangent to both spheres at the common point `(0,2,0)`, at equal
distance 10. -/

lemma rsi_down_first :
    ray_sphere_intersection (Ray.new (vec3 0 10 0) (vec3 0 (-1) 0))
      ⟨vec3 0 0 0, 2⟩ 0 10000 = some ⟨8, vec3 0 1 0, vec3 0 2 0⟩ := by
  have hd : rsDisc (Ray.new (vec3 0 10 0) (vec3 0 (-1) 0)) ⟨vec3 0 0 0, 2⟩ = 4 := by
    simp [rsDisc, rsHalfB, rsA, rsC, Ray.new, vec3, dot]
    norm_num
  have hr1 : rsRoot1 (Ray.new (vec3 0 10 0) (vec3 0 (-1) 0)) ⟨vec3 0 0 0, 2⟩ = 8 := by
    rw [rsRoot1, hd, sqrt_four]
    simp [rsHalfB, rsA, Ray.new, vec3, dot]
    norm_num
  rw [rsi_first_root _ _ 0 10000 (by rw [hd]; norm_num)
      (by rw [hr1]; norm_num) (by rw [hr1]; norm_num), hr1]
  simp [mkHit, Ray.new, vec3]
  norm_num

lemma rsi_down_second :
    ray_sphere_intersection (Ray.new (vec3 0 10 0) (vec3 0 (-1) 0))
      ⟨vec3 0 3 0, 1⟩ 0 10000 = some ⟨6, vec3 0 1 0, vec3 0 4 0⟩ := by
  have hd : rsDisc (Ray.new (vec3 0 10 0) (vec3 0 (-1) 0)) ⟨vec3 0 3 0, 1⟩ = 1 := by
    simp [rsDisc, rsHalfB, rsA, rsC, Ray.new, vec3, dot]
    norm_num
  have hr1 : rsRoot1 (Ray.new (vec3 0 10 0) (vec3 0 (-1) 0)) ⟨vec3 0 3 0, 1⟩ = 6 := by
    rw [rsRoot1, hd, sqrt_one_eq]
    simp [rsHalfB, rsA, Ray.new, vec3, dot]
    norm_num
  rw [rsi_first_root _ _ 0 10000 (by rw [hd]; norm_num)
      (by rw [hr1]; norm_num) (by rw [hr1]; norm_num), hr1]
  simp [mkHit, Ray.new, vec3]
  norm_num

/-- C3 witness: the ray from `(0,10,0)` straight down hits the second
sphere at distance 6 and the first sphere at distance 8, and `cast`
returns the second sphere's color. -/
theorem spec_C3_nearest_sphere_color_witness :
    Ray.cast (Ray.new (vec3 0 10 0) (vec3 0 (-1) 0)) = vec3 0 1 0 :=
  (spec_C3_nearest_sphere_color (Ray.new (vec3 0 10 0) (vec3 0 (-1) 0))).2.1
    ⟨8, vec3 0 1 0, vec3 0 2 0⟩ ⟨6, vec3 0 1 0, vec3 0 4 0⟩
    rsi_down_first rsi_down_second (by norm_num)

lemma rsi_tie_first :
    ray_sphere_intersection (Ray.new (vec3 0 2 10) (vec3 0 0 (-1)))
      ⟨vec3 0 0 0, 2⟩ 0 10000 = some ⟨10, vec3 0 1 0, vec3 0 2 0⟩ := by
  have hd : rsDisc (Ray.new (vec3 0 2 10) (vec3 0 0 (-1))) ⟨vec3 0 0 0, 2⟩ = 0 := by
    simp [rsDisc, rsHalfB, rsA, rsC, Ray.new, vec3, dot]
  have hr1 : rsRoot1 (Ray.new (vec3 0 2 10) (vec3 0 0 (-1))) ⟨vec3 0 0 0, 2⟩ = 10 := by
    rw [rsRoot1, hd, Real.sqrt_zero]
    simp [rsHalfB, rsA, Ray.new, vec3, dot]
  rw [rsi_first_root _ _ 0 10000 (by rw [hd]; norm_num)
      (by rw [hr1]; norm_num) (by rw [hr1]; norm_num), hr1]
  simp [mkHit, Ray.new, vec3]

lemma rsi_tie_second :
    ray_sphere_intersection (Ray.new (vec3 0 2 10) (vec3 0 0 (-1)))
      ⟨vec3 0 3 0, 1⟩ 0 10000 = some ⟨10, vec3 0 (-1) 0, vec3 0 2 0⟩ := by
  have hd : rsDisc (Ray.new (vec3 0 2 10) (vec3 0 0 (-1))) ⟨vec3 0 3 0, 1⟩ = 0 := by
    simp [rsDisc, rsHalfB, rsA, rsC, Ray.new, vec3, dot]
    norm_num
  have hr1 : rsRoot1 (Ray.new (vec3 0 2 10) (vec3 0 0 (-1))) ⟨vec3 0 3 0, 1⟩ = 10 := by
    rw [rsRoot1, hd, Real.sqrt_zero]
    simp [rsHalfB, rsA, Ray.new, vec3, dot]
  rw [rsi_first_root _ _ 0 10000 (by rw [hd]; norm_num)
      (by rw [hr1]; norm_num) (by rw [hr1]; norm_num), hr1]
  simp [mkHit, Ray.new, vec3]
  norm_num

/-- C4 counterexample: the ray from `(0,2,10)` in direction `(0,0,-1)`
hits both spheres at exactly distance 10, yet `cast` returns the second
sphere's color `(0,1,0)`, not the first sphere's color `(1,0,0)` as the
claim states. -/
theorem spec_C4_counterexample :
    ray_sphere_intersection (Ray.new (vec3 0 2 10) (vec3 0 0 (-1)))
        ⟨vec3 0 0 0, 2⟩ 0 10000 = some ⟨10, vec3 0 1 0, vec3 0 2 0⟩ ∧
    ray_sphere_intersection (Ray.new (vec3 0 2 10) (vec3 0 0 (-1)))
        ⟨vec3 0 3 0, 1⟩ 0 10000 = some ⟨10, vec3 0 (-1) 0, vec3 0 2 0⟩ ∧
    Ray.cast (Ray.new (vec3 0 2 10) (vec3 0 0 (-1))) = vec3 0 1 0 ∧
    vec3 0 1 0 ≠ vec3 1 0 0 := by
  refine ⟨rsi_tie_first, rsi_tie_second, ?_, ?_⟩
  · rw [cast_of_both _ _ _ rsi_tie_first rsi_tie_second]
    norm_num
  · simp [vec3]

/-- C4 amended: when both scene spheres report exactly equal hit
distance, `Ray::cast` returns the color of the second sphere `(0,1,0)`
(the later primitive in iteration order), because the comparison
`hit.dist < hit2.dist` is false on ties. -/
theorem spec_C4_amended_tie_second_wins (r : Ray) (a b : HitRecord)
    (h1 : ray_sphere_intersection r ⟨vec3 0 0 0, 2⟩ 0 10000 = some a)
    (h2 : ray_sphere_intersection r ⟨vec3 0 3 0, 1⟩ 0 10000 = some b)
    (heq : a.dist = b.dist) :
    r.cast = vec3 0 1 0 := by
  rw [cast_of_both r a b h1 h2, if_neg (by rw [heq]; exact lt_irrefl _)]

/-- C4 amended witness: the tangent ray hitting both spheres at
distance 10 resolves to the second sphere's color. -/
theorem spec_C4_amended_tie_second_wins_witness :
    Ray.cast (Ray.new (vec3 0 2 10) (vec3 0 0 (-1))) = vec3 0 1 0 :=
  spec_C4_amended_tie_second_wins (Ray.new (vec3 0 2 10) (vec3 0 0 (-1)))
    ⟨10, vec3 0 1 0, vec3 0 2 0⟩ ⟨10, vec3 0 (-1) 0, vec3 0 2 0⟩
    rsi_tie_first rsi_tie_second rfl

/-- C9: a ray exactly tangent to a sphere (discriminant equal to zero)
whose root `-half_b / a` lies inside `[t_min, t_max]` yields exactly one
valid hit record, built from that single root — not `none`. -/
theorem spec_C9_tangent_single_hit (r : Ray) (s : Sphere) (t_min t_max : ℝ)
    (hd : rsDisc r s = 0)
    (h1 : t_min ≤ -rsHalfB r s / rsA r) (h2 : -rsHalfB r s / rsA r ≤ t_max) :
    ray_sphere_intersection r s t_min t_max =
      some (mkHit r s (-rsHalfB r s / rsA r)) := by
  have hroot : rsRoot1 r s = -rsHalfB r s / rsA r := by
    rw [rsRoot1, hd, Real.sqrt_zero, sub_zero]
  rw [rsi_first_root r s t_min t_max (by rw [hd]; norm_num)
    (by rw [hroot]; exact h1) (by rw [hroot]; exact h2), hroot]

lemma tangent_half_b :
    rsHalfB (Ray.new (vec3 2 0 10) (vec3 0 0 (-1))) ⟨vec3 0 0 0, 2⟩ = -10 := by
  simp [rsHalfB, Ray.new, vec3, dot]

lemma tangent_a : rsA (Ray.new (vec3 2 0 10) (vec3 0 0 (-1))) = 1 := by
  simp [rsA, Ray.new, vec3, dot]

/-- C9 witness: the ray from `(2,0,10)` in direction `(0,0,-1)` is
tangent to the radius-2 sphere at the origin (discriminant 0) and the
single root 10 lies in `[0, 10000]`, so the intersection returns that
single hit. -/
theorem spec_C9_tangent_single_hit_witness :
    rsDisc (Ray.new (vec3 2 0 10) (vec3 0 0 (-1))) ⟨vec3 0 0 0, 2⟩ = 0 ∧
    ray_sphere_intersection (Ray.new (vec3 2 0 10) (vec3 0 0 (-1)))
        ⟨vec3 0 0 0, 2⟩ 0 10000 =
      some (mkHit (Ray.new (vec3 2 0 10) (vec3 0 0 (-1))) ⟨vec3 0 0 0, 2⟩ 10) := by
  have hd : rsDisc (Ray.new (vec3 2 0 10) (vec3 0 0 (-1))) ⟨vec3 0 0 0, 2⟩ = 0 := by
    simp [rsDisc, rsHalfB, rsA, rsC, Ray.new, vec3, dot]
  have hv : -rsHalfB (Ray.new (vec3 2 0 10) (vec3 0 0 (-1))) ⟨vec3 0 0 0, 2⟩ /
      rsA (Ray.new (vec3 2 0 10) (vec3 0 0 (-1))) = 10 := by
    rw [tangent_half_b, tangent_a]
    norm_num
  refine ⟨hd, ?_⟩
  have h := spec_C9_tangent_single_hit (Ray.new (vec3 2 0 10) (vec3 0 0 (-1)))
    ⟨vec3 0 0 0, 2⟩ 0 10000 hd (by rw [hv]; norm_num) (by rw [hv]; norm_num)
  rw [h, hv]

/-- C6: the intersection engine has no guard for a zero-length ray
direction.  On the ray from `(0,0,10)` with direction `(0,0,0)` the
quadratic coefficient `a = dot(dir, dir)` is `0`, the discriminant is
`0` (not negative), and the code still evaluates
`(-half_b - sqrt disc) / a` with the zero divisor and returns a hit
record instead of rejecting the ray.  In the exact-real model the
division by zero yields `0`, so the function returns a hit with
distance `0`; in IEEE `f64` the same division yields NaN and the NaN
root passes both range comparisons, likewise producing a hit record. -/
theorem spec_C6_zero_direction_not_rejected :
    rsA (Ray.new (vec3 0 0 10) (vec3 0 0 0)) = 0 ∧
    ray_sphere_intersection (Ray.new (vec3 0 0 10) (vec3 0 0 0))
        ⟨vec3 0 0 0, 2⟩ 0 10000 ≠ none ∧
    ray_sphere_intersection (Ray.new (vec3 0 0 10) (vec3 0 0 0))
        ⟨vec3 0 0 0, 2⟩ 0 10000 =
      some ⟨0, vec3 0 0 5, vec3 0 0 10⟩ := by
  have ha : rsA (Ray.new (vec3 0 0 10) (vec3 0 0 0)) = 0 := by
    simp [rsA, Ray.new, vec3, dot]
  have hd : rsDisc (Ray.new (vec3 0 0 10) (vec3 0 0 0)) ⟨vec3 0 0 0, 2⟩ = 0 := by
    simp [rsDisc, rsHalfB, rsA, rsC, Ray.new, vec3, dot]
  have hr1 : rsRoot1 (Ray.new (vec3 0 0 10) (vec3 0 0 0)) ⟨vec3 0 0 0, 2⟩ = 0 := by
    rw [rsRoot1, hd, Real.sqrt_zero, ha, div_zero]
  have hmain : ray_sphere_intersection (Ray.new (vec3 0 0 10) (vec3 0 0 0))
      ⟨vec3 0 0 0, 2⟩ 0 10000 = some ⟨0, vec3 0 0 5, vec3 0 0 10⟩ := by
    rw [rsi_first_root _ _ 0 10000 (by rw [hd]; norm_num)
        (by rw [hr1]) (by rw [hr1]; norm_num), hr1]
    simp [mkHit, Ray.new, vec3]
    norm_num
  exact ⟨ha, by rw [hmain]; simp, hmain⟩

/-- C7: the sample generator is deterministic, finite and restartable.
Constructed from a camera snapshot, it emits exactly `total_samples`
items and is then exhausted (more fuel adds nothing), and any second
generator constructed from an equal snapshot emits the identical
sequence. -/
theorem spec_C7_deterministic_restartable (cam : Camera) (n : ℕ)
    (hn : (RayIterator.new cam).total_samples ≤ n) :
    ((RayIterator.new cam).run n).length = (RayIterator.new cam).total_samples ∧
    (RayIterator.new cam).run n =
      (RayIterator.new cam).run (RayIterator.new cam).total_samples ∧
    ∀ cam' : Camera, cam' = cam →
      (RayIterator.new cam').run n = (RayIterator.new cam).run n := by
  refine ⟨?_, ?_, ?_⟩
  · rw [RayIterator.run_new_eq]
    simp [min_eq_right hn]
  · rw [RayIterator.run_new_eq, RayIterator.run_new_eq]
    simp [min_eq_right hn]
  · intro cam' h
    rw [h]

/-- C7 witness: a concrete camera snapshot with exposure `0.01`, driven
with exactly `total_samples` fuel. -/
theorem spec_C7_deterministic_restartable_witness :
    ((RayIterator.new ⟨vec3 10 10 10, vec3 0 0 1, vec2 0.036 0.024, 0.01, 0.05, 1⟩).run
        (RayIterator.new ⟨vec3 10 10 10, vec3 0 0 1, vec2 0.036 0.024, 0.01, 0.05, 1⟩).total_samples).length =
      (RayIterator.new ⟨vec3 10 10 10, vec3 0 0 1, vec2 0.036 0.024, 0.01, 0.05, 1⟩).total_samples :=
  (spec_C7_deterministic_restartable
    ⟨vec3 10 10 10, vec3 0 0 1, vec2 0.036 0.024, 0.01, 0.05, 1⟩
    (RayIterator.new ⟨vec3 10 10 10, vec3 0 0 1, vec2 0.036 0.024, 0.01, 0.05, 1⟩).total_samples
    le_rfl).1

/-- C10: for a positive exposure strictly below `0.01`, the Rust cast
`(100.0 * exposure) as usize` truncates to `0`, so `samples_per_pixel`
and `total_samples` are both `0`; the very first `next` call hits the
`i >= total_samples` check — which precedes the division
`i / samples_per_pixel` — and returns `None`, so the generator emits the
empty sequence and the division by zero is never reached. -/
theorem spec_C10_tiny_exposure_empty (cam : Camera)
    (h0 : 0 < cam.exposure) (h1 : cam.exposure < 0.01) :
    (RayIterator.new cam).samples_per_pixel = 0 ∧
    (RayIterator.new cam).total_samples = 0 ∧
    ((RayIterator.new cam).next).1 = none ∧
    ∀ fuel, (RayIterator.new cam).run fuel = [] := by
  have hfloor : ⌊(100 : ℝ) * cam.exposure⌋ = 0 := by
    rw [Int.floor_eq_zero_iff]
    constructor
    · positivity
    · show (100 : ℝ) * cam.exposure < 1
      nlinarith
  have hspp : (RayIterator.new cam).samples_per_pixel = 0 := by
    show (⌊(100 : ℝ) * cam.exposure⌋).toNat = 0
    rw [hfloor]
    rfl
  have htot : (RayIterator.new cam).total_samples = 0 := by
    show (RayIterator.new cam).samples_per_pixel * WINDOW_WIDTH * WINDOW_HEIGHT = 0
    rw [hspp, Nat.zero_mul, Nat.zero_mul]
  refine ⟨hspp, htot, ?_, ?_⟩
  · rw [RayIterator.next_stop _ (by rw [htot]; exact Nat.zero_le _)]
  · intro fuel
    rw [RayIterator.run_eq]
    simp [htot]

/-- C10 witness: a concrete camera with exposure `0.005` produces zero
samples per pixel and an empty sample sequence. -/
theorem spec_C10_tiny_exposure_empty_witness :
    (0 : ℝ) < 0.005 ∧ (0.005 : ℝ) < 0.01 ∧
    (RayIterator.new ⟨vec3 0 0 0, vec3 0 0 1, vec2 0.036 0.024, 0.005, 0.05, 1⟩).total_samples = 0 ∧
    (RayIterator.new ⟨vec3 0 0 0, vec3 0 0 1, vec2 0.036 0.024, 0.005, 0.05, 1⟩).run 5 = [] := by
  have h := spec_C10_tiny_exposure_empty
    ⟨vec3 0 0 0, vec3 0 0 1, vec2 0.036 0.024, 0.005, 0.05, 1⟩
    (by norm_num) (by norm_num)
  exact ⟨by norm_num, by norm_num, h.2.1, h.2.2.2 5⟩

/-! Evaluation of the first emitted sample. -/

lemma sampleItem_zero (s : RayIterator) :
    sampleItem s 0 =
      (((0 : ℤ), (0 : ℤ)),
        Ray.new s.sensor_bottom_left
          (normalize (s.focal_point - s.sensor_bottom_left))) := by
  simp [sampleItem, Ray.new, vec2]

lemma normalize_degenerate : normalize (vec3 0 0.05 0) = vec3 0 1 0 := by
  have hd : dot (vec3 0 0.05 0) (vec3 0 0.05 0) = 0.05 ^ 2 := by
    simp [dot, vec3]
    norm_num
  rw [normalize, hd, Real.sqrt_sq (by norm_num : (0:ℝ) ≤ 0.05)]
  simp [vec3]
  norm_num

/-- C5: `RayIterator::new` performs no validation at all.  For the
degenerate camera with `look = (0,1,0)` parallel to the world up vector,
construction succeeds with `sensor_x_axis` equal to the zero vector, no
configuration error is reported, and ray generation proceeds: the first
`next` call emits the sample for pixel `(0,0)`.  (With this camera the
emitted direction is `(0,1,0)`, not NaN, because the focal offset is
nonzero; but the required detection and error report do not exist.) -/
theorem spec_C5_degenerate_camera_not_detected :
    (RayIterator.new ⟨vec3 0 0 0, vec3 0 1 0, vec2 0.036 0.024, 1, 0.05, 1⟩).sensor_x_axis =
      vec3 0 0 0 ∧
    0 < (RayIterator.new ⟨vec3 0 0 0, vec3 0 1 0, vec2 0.036 0.024, 1, 0.05, 1⟩).total_samples ∧
    ((RayIterator.new ⟨vec3 0 0 0, vec3 0 1 0, vec2 0.036 0.024, 1, 0.05, 1⟩).next).1 =
      some (((0 : ℤ), (0 : ℤ)), Ray.new (vec3 0 0 0) (vec3 0 1 0)) := by
  have hx : (RayIterator.new ⟨vec3 0 0 0, vec3 0 1 0, vec2 0.036 0.024, 1, 0.05, 1⟩).sensor_x_axis =
      vec3 0 0 0 := by
    show cross (vec3 0 1 0) (vec3 0 1 0) = vec3 0 0 0
    simp [cross, vec3]
  have hspp : (RayIterator.new ⟨vec3 0 0 0, vec3 0 1 0, vec2 0.036 0.024, 1, 0.05, 1⟩).samples_per_pixel =
      100 := by
    show (⌊(100 : ℝ) * (1 : ℝ)⌋).toNat = 100
    rw [show (100 : ℝ) * (1 : ℝ) = ((100 : ℤ) : ℝ) by norm_num, Int.floor_intCast]
    rfl
  have htot : 0 < (RayIterator.new ⟨vec3 0 0 0, vec3 0 1 0, vec2 0.036 0.024, 1, 0.05, 1⟩).total_samples := by
    show 0 < (RayIterator.new ⟨vec3 0 0 0, vec3 0 1 0, vec2 0.036 0.024, 1, 0.05, 1⟩).samples_per_pixel *
      WINDOW_WIDTH * WINDOW_HEIGHT
    rw [hspp, WINDOW_WIDTH_eq]
    norm_num [WINDOW_HEIGHT]
  have hbl : (RayIterator.new ⟨vec3 0 0 0, vec3 0 1 0, vec2 0.036 0.024, 1, 0.05, 1⟩).sensor_bottom_left =
      vec3 0 0 0 := by
    show vec3 0 0 0 - cross (vec3 0 1 0) (vec3 0 1 0) * (0.036 : ℝ) * (0.5 : ℝ) -
        cross (vec3 0 1 0) (cross (vec3 0 1 0) (vec3 0 1 0)) * (0.024 : ℝ) * (0.5 : ℝ) =
      vec3 0 0 0
    simp [cross, vec3]
  have hfp : (RayIterator.new ⟨vec3 0 0 0, vec3 0 1 0, vec2 0.036 0.024, 1, 0.05, 1⟩).focal_point =
      vec3 0 0.05 0 := by
    show vec3 0 0 0 + vec3 0 1 0 * (0.05 : ℝ) = vec3 0 0.05 0
    simp [vec3]
  refine ⟨hx, htot, ?_⟩
  rw [RayIterator.next_emit _ htot]
  show some (sampleItem _ 0) = _
  rw [sampleItem_zero, hbl, hfp]
  rw [show vec3 0 0.05 0 - vec3 0 0 0 = vec3 0 0.05 0 by simp [vec3]]
  rw [normalize_degenerate]

/-! Index access into the emitted sequence. -/

lemma sampleItem_pixel (s : RayIterator) (i : ℕ) :
    (sampleItem s i).1 =
      (((i / s.samples_per_pixel % WINDOW_WIDTH : ℕ) : ℤ),
       ((i / s.samples_per_pixel / WINDOW_WIDTH : ℕ) : ℤ)) := rfl

lemma run_length (cam : Camera) :
    ((RayIterator.new cam).run (RayIterator.new cam).total_samples).length =
      (RayIterator.new cam).total_samples := by
  rw [RayIterator.run_new_eq]
  simp

lemma run_get (cam : Camera) (i : ℕ)
    (hi : i < ((RayIterator.new cam).run (RayIterator.new cam).total_samples).length) :
    ((RayIterator.new cam).run (RayIterator.new cam).total_samples).get ⟨i, hi⟩ =
      sampleItem (RayIterator.new cam) i := by
  rw [List.get_eq_getElem]
  simp only [RayIterator.run_new_eq, min_self, List.getElem_map,
    List.getElem_range'_1, Nat.zero_add]

/-- C2: for a camera with nonnegative exposure, the sample generator
uses `samples_per_pixel = floor(100 * exposure) = k` and emits exactly
`k * WINDOW_WIDTH * WINDOW_HEIGHT` items; the i-th item's pixel is
`((i/k) mod W, (i/k) div W)`; and for every pixel index
`p < W * H`, the items carrying pixel `p` are exactly the `k`
consecutive indices in `[p*k, (p+1)*k)` — row-major enumeration with x
fastest-varying. -/
theorem spec_C2_sample_enumeration (cam : Camera) (he : 0 ≤ cam.exposure) :
    (((RayIterator.new cam).samples_per_pixel : ℤ) = ⌊(100 : ℝ) * cam.exposure⌋) ∧
    ((RayIterator.new cam).run (RayIterator.new cam).total_samples).length =
      (RayIterator.new cam).samples_per_pixel * WINDOW_WIDTH * WINDOW_HEIGHT ∧
    (∀ i (hi : i < ((RayIterator.new cam).run (RayIterator.new cam).total_samples).length),
      (((RayIterator.new cam).run (RayIterator.new cam).total_samples).get ⟨i, hi⟩).1 =
        (((i / (RayIterator.new cam).samples_per_pixel % WINDOW_WIDTH : ℕ) : ℤ),
         ((i / (RayIterator.new cam).samples_per_pixel / WINDOW_WIDTH : ℕ) : ℤ))) ∧
    (∀ p : ℕ, p < WINDOW_WIDTH * WINDOW_HEIGHT →
      ∀ i (hi : i < ((RayIterator.new cam).run (RayIterator.new cam).total_samples).length),
        ((((RayIterator.new cam).run (RayIterator.new cam).total_samples).get ⟨i, hi⟩).1 =
            (((p % WINDOW_WIDTH : ℕ) : ℤ), ((p / WINDOW_WIDTH : ℕ) : ℤ)) ↔
          p * (RayIterator.new cam).samples_per_pixel ≤ i ∧
            i < (p + 1) * (RayIterator.new cam).samples_per_pixel)) := by
  refine ⟨?_, ?_, ?_, ?_⟩
  · show ((⌊(100 : ℝ) * cam.exposure⌋).toNat : ℤ) = ⌊(100 : ℝ) * cam.exposure⌋
    exact Int.toNat_of_nonneg (Int.floor_nonneg.mpr (by positivity))
  · exact run_length cam
  · intro i hi
    rw [run_get cam i hi, sampleItem_pixel]
  · intro p hp i hi
    rw [run_get cam i hi, sampleItem_pixel]
    have hik : i < (RayIterator.new cam).samples_per_pixel *
        (WINDOW_WIDTH * WINDOW_HEIGHT) := by
      have h := hi
      rw [run_length cam] at h
      calc i < (RayIterator.new cam).total_samples := h
      _ = (RayIterator.new cam).samples_per_pixel * (WINDOW_WIDTH * WINDOW_HEIGHT) :=
        Nat.mul_assoc _ _ _
    have hk : 0 < (RayIterator.new cam).samples_per_pixel := by
      rcases Nat.eq_zero_or_pos (RayIterator.new cam).samples_per_pixel with h0 | h0
      · rw [h0] at hik
        exact absurd hik (by simp)
      · exact h0
    constructor
    · intro hEq
      rw [Prod.mk.injEq] at hEq
      have h1 : i / (RayIterator.new cam).samples_per_pixel % WINDOW_WIDTH =
          p % WINDOW_WIDTH := Nat.cast_inj.mp hEq.1
      have h2 : i / (RayIterator.new cam).samples_per_pixel / WINDOW_WIDTH =
          p / WINDOW_WIDTH := Nat.cast_inj.mp hEq.2
      have hqp : i / (RayIterator.new cam).samples_per_pixel = p := by
        conv_lhs => rw [← Nat.div_add_mod
          (i / (RayIterator.new cam).samples_per_pixel) WINDOW_WIDTH]
        rw [h1, h2]
        exact Nat.div_add_mod p WINDOW_WIDTH
      constructor
      · exact (Nat.le_div_iff_mul_le hk).mp (le_of_eq hqp.symm)
      · exact (Nat.div_lt_iff_lt_mul hk).mp (by rw [hqp]; exact Nat.lt_succ_self p)
    · rintro ⟨hle, hlt⟩
      have hqp : i / (RayIterator.new cam).samples_per_pixel = p := by
        have hge : p ≤ i / (RayIterator.new cam).samples_per_pixel :=
          (Nat.le_div_iff_mul_le hk).mpr hle
        have hlt' : i / (RayIterator.new cam).samples_per_pixel < p + 1 :=
          (Nat.div_lt_iff_lt_mul hk).mpr hlt
        omega
      rw [hqp]

/-- C2 witness: concrete camera with exposure 1, so `k = 100`: the
generator's sample count field is `100` and the length of the emitted
sequence matches it times the window area. -/
theorem spec_C2_sample_enumeration_witness :
    (0 : ℝ) ≤ 1 ∧
    ((RayIterator.new ⟨vec3 10 10 10, vec3 0 0 1, vec2 0.036 0.024, 1, 0.05, 1⟩).run
        (RayIterator.new ⟨vec3 10 10 10, vec3 0 0 1, vec2 0.036 0.024, 1, 0.05, 1⟩).total_samples).length =
      (RayIterator.new ⟨vec3 10 10 10, vec3 0 0 1, vec2 0.036 0.024, 1, 0.05, 1⟩).samples_per_pixel *
        WINDOW_WIDTH * WINDOW_HEIGHT :=
  ⟨by norm_num,
    (spec_C2_sample_enumeration ⟨vec3 10 10 10, vec3 0 0 1, vec2 0.036 0.024, 1, 0.05, 1⟩
      (by norm_num)).2.1⟩

end

end Raytracer
